import Mathlib

/-!
# Verification of the `chaiyong-todolist` repository

A shallow embedding of the repository's two non-trivial modules:

* `src/models.py` — the `Priority` and `Status` enums and the `TodoItem`
  dataclass with its `to_dict` / `from_dict` (de)serialization methods.
  `TodoItem` timestamps are Python `datetime` values serialized with
  `datetime.isoformat()` and parsed back with `datetime.fromisoformat()`;
  both stdlib functions are modelled executably below (`PyDatetime`), on
  naive datetimes (no `tzinfo`) and the canonical
  `YYYY-MM-DD[*HH:MM[:SS[.ffffff]]]` shapes those methods exchange.

* `src/auth.py` — `AuthManager`, which manages user records in a JSON file.
  The file system is modelled as an explicit `Disk` state threaded through
  every operation: the file either does not exist or holds some content,
  reads and writes can be made to fail (Python `OSError`), and the number
  of performed read/write calls is recorded so that claims about I/O
  behaviour ("zero file reads") are expressible.  File content is modelled
  at the granularity the code observes through `json.loads`: either a
  well-formed JSON array of user objects, blank/whitespace-only text, or
  other malformed text.

Python exceptions that the code lets escape are modelled with `Option`
(`none` = the call raises); exceptions the code catches and swallows never
surface in the corresponding model type, mirroring the `try/except` blocks.
-/

/-! ## models.py — enums -/

/-- `class Priority(Enum)` from `src/models.py`. -/
inductive Priority where
  | HIGH
  | MID
  | LOW
deriving DecidableEq

/-- `Priority.value`: the string value of each enum member. -/
def Priority.value : Priority → String
  | .HIGH => "HIGH"
  | .MID => "MID"
  | .LOW => "LOW"

/-- Python errors that `TodoItem.from_dict` can raise. -/
inductive PyError where
  | keyError (key : String)
  | valueError (msg : String)
deriving DecidableEq

/-- `Priority(s)`: Python `Enum` lookup by value; raises `ValueError` when the
string matches no member. -/
def Priority.fromValue (s : String) : Except PyError Priority :=
  if s = "HIGH" then .ok .HIGH
  else if s = "MID" then .ok .MID
  else if s = "LOW" then .ok .LOW
  else .error (.valueError s)

/-- `class Status(Enum)` from `src/models.py`. -/
inductive Status where
  | PENDING
  | COMPLETED
deriving DecidableEq

/-- `Status.value`: the string value of each enum member. -/
def Status.value : Status → String
  | .PENDING => "PENDING"
  | .COMPLETED => "COMPLETED"

/-- `Status(s)`: Python `Enum` lookup by value. -/
def Status.fromValue (s : String) : Except PyError Status :=
  if s = "PENDING" then .ok .PENDING
  else if s = "COMPLETED" then .ok .COMPLETED
  else .error (.valueError s)

/-! ## Python `datetime` (naive) and its ISO-8601 codec -/

/-- A naive Python `datetime.datetime` value (no `tzinfo`, no `fold`). -/
structure PyDatetime where
  year : Nat
  month : Nat
  day : Nat
  hour : Nat
  minute : Nat
  second : Nat
  microsecond : Nat
deriving DecidableEq

/-- Leap-year rule used by `datetime` for day-of-month validation. -/
def isLeapYear (y : Nat) : Bool :=
  (y % 4 == 0 && y % 100 != 0) || y % 400 == 0

/-- Number of days in a month, as `datetime` validates it. -/
def daysInMonth (y m : Nat) : Nat :=
  if m = 2 then (if isLeapYear y then 29 else 28)
  else if m = 4 ∨ m = 6 ∨ m = 9 ∨ m = 11 then 30
  else 31

/-- The field ranges a Python `datetime` object can actually hold
(`datetime` raises `ValueError` outside them, and `fromisoformat` enforces
the same ranges). -/
def PyDatetime.validB (dt : PyDatetime) : Bool :=
  decide (1 ≤ dt.year) && decide (dt.year ≤ 9999) &&
  decide (1 ≤ dt.month) && decide (dt.month ≤ 12) &&
  decide (1 ≤ dt.day) && decide (dt.day ≤ daysInMonth dt.year dt.month) &&
  decide (dt.hour ≤ 23) && decide (dt.minute ≤ 59) &&
  decide (dt.second ≤ 59) && decide (dt.microsecond ≤ 999999)

/-- The ASCII digit character for `n < 10`. -/
def digitChar (n : Nat) : Char := Char.ofNat (48 + n)

/-- Two zero-padded decimal digits (`%02d`). -/
def twoDigits (n : Nat) : List Char := [digitChar (n / 10), digitChar (n % 10)]

/-- Four zero-padded decimal digits (`%04d`). -/
def fourDigits (n : Nat) : List Char := twoDigits (n / 100) ++ twoDigits (n % 100)

/-- Six zero-padded decimal digits (`%06d`). -/
def sixDigits (n : Nat) : List Char :=
  twoDigits (n / 10000) ++ twoDigits (n / 100 % 100) ++ twoDigits (n % 100)

/-- `datetime.isoformat()` on a naive datetime: `YYYY-MM-DDTHH:MM:SS`,
with `.ffffff` appended only when the microsecond field is non-zero. -/
def PyDatetime.isoChars (dt : PyDatetime) : List Char :=
  fourDigits dt.year ++ '-' :: twoDigits dt.month ++ '-' :: twoDigits dt.day ++
  'T' :: twoDigits dt.hour ++ ':' :: twoDigits dt.minute ++ ':' :: twoDigits dt.second ++
  (if dt.microsecond = 0 then [] else '.' :: sixDigits dt.microsecond)

/-- `datetime.isoformat()` as a `String`. -/
def PyDatetime.isoformat (dt : PyDatetime) : String := String.mk dt.isoChars

/-- The numeric value of an ASCII digit character, `none` on non-digits. -/
def digitVal (c : Char) : Option Nat :=
  if '0' ≤ c ∧ c ≤ '9' then some (c.toNat - 48) else none

/-- Parse exactly two decimal digits. -/
def parse2 : List Char → Option (Nat × List Char)
  | c1 :: c2 :: rest =>
    match digitVal c1, digitVal c2 with
    | some a, some b => some (10 * a + b, rest)
    | _, _ => none
  | _ => none

/-- Parse exactly four decimal digits. -/
def parse4 (cs : List Char) : Option (Nat × List Char) :=
  match parse2 cs with
  | some (a, cs') =>
    match parse2 cs' with
    | some (b, cs'') => some (100 * a + b, cs'')
    | none => none
  | none => none

/-- Consume one expected character. -/
def expectChar (c : Char) : List Char → Option (List Char)
  | c' :: rest => if c' = c then some rest else none
  | _ => none

/-- Consume a maximal run of decimal digits, returning their values. -/
def takeDigits : List Char → List Nat × List Char
  | [] => ([], [])
  | c :: rest =>
    match digitVal c with
    | some d => (d :: (takeDigits rest).1, (takeDigits rest).2)
    | none => ([], c :: rest)

/-- The number denoted by a digit-value list read most-significant first. -/
def digitsVal (ds : List Nat) : Nat := ds.foldl (fun a d => 10 * a + d) 0

/-- Parse the time part `HH:MM[:SS[.f{1,6}]]` accepted by
`datetime.fromisoformat`; a 1–6 digit fraction is scaled to microseconds. -/
def parseTime (cs : List Char) : Option (Nat × Nat × Nat × Nat) :=
  match parse2 cs with
  | none => none
  | some (h, cs) =>
    match expectChar ':' cs with
    | none => none
    | some cs =>
      match parse2 cs with
      | none => none
      | some (mi, cs) =>
        if cs = [] then some (h, mi, 0, 0)
        else
          match expectChar ':' cs with
          | none => none
          | some cs =>
            match parse2 cs with
            | none => none
            | some (s, cs) =>
              if cs = [] then some (h, mi, s, 0)
              else
                match expectChar '.' cs with
                | none => none
                | some cs =>
                  match takeDigits cs with
                  | (ds, rest) =>
                    if rest = [] ∧ 1 ≤ ds.length ∧ ds.length ≤ 6 then
                      some (h, mi, s, digitsVal ds * 10 ^ (6 - ds.length))
                    else none

/-- `datetime.fromisoformat` on a character list: `YYYY-MM-DD`, optionally
followed by a single separator character (Python accepts any) and a time
part; the resulting fields are range-checked as `datetime` does, and `none`
models a raised `ValueError`. -/
def PyDatetime.fromisoChars (cs : List Char) : Option PyDatetime :=
  match parse4 cs with
  | none => none
  | some (y, cs) =>
    match expectChar '-' cs with
    | none => none
    | some cs =>
      match parse2 cs with
      | none => none
      | some (mo, cs) =>
        match expectChar '-' cs with
        | none => none
        | some cs =>
          match parse2 cs with
          | none => none
          | some (day, cs) =>
            match cs with
            | [] =>
              let dt : PyDatetime := ⟨y, mo, day, 0, 0, 0, 0⟩
              if dt.validB then some dt else none
            | _ :: rest =>
              match parseTime rest with
              | none => none
              | some (h, mi, s, us) =>
                let dt : PyDatetime := ⟨y, mo, day, h, mi, s, us⟩
                if dt.validB then some dt else none

/-- `datetime.fromisoformat(s)`; `none` models a raised `ValueError`. -/
def PyDatetime.fromisoformat (s : String) : Option PyDatetime :=
  PyDatetime.fromisoChars s.data

/-! ## models.py — TodoItem -/

/-- `@dataclass class TodoItem` from `src/models.py`, field for field. -/
structure TodoItem where
  id : String
  title : String
  details : String
  priority : Priority
  status : Status
  owner : String
  created_at : PyDatetime
  updated_at : PyDatetime
deriving DecidableEq

/-- The `Dict[str, Any]` exchanged by `to_dict` / `from_dict`, restricted to
the eight keys the code touches; `none` models an absent key, and values are
the strings the dictionary carries (non-string values pass through `str()`
in the source before use, so string values lose no generality for the
properties considered here). -/
structure TodoDict where
  id : Option String
  title : Option String
  details : Option String
  priority : Option String
  status : Option String
  owner : Option String
  created_at : Option String
  updated_at : Option String
deriving DecidableEq

/-- `data[key]`: raises `KeyError` when the key is absent. -/
def getKey (key : String) : Option String → Except PyError String
  | some v => .ok v
  | none => .error (.keyError key)

/-- Lift stdlib parse failure (`ValueError`) into `Except`. -/
def liftValue (msg : String) : Option PyDatetime → Except PyError PyDatetime
  | some dt => .ok dt
  | none => .error (.valueError msg)

/-- `TodoItem.to_dict` from `src/models.py`. -/
def TodoItem.to_dict (item : TodoItem) : TodoDict :=
  { id := some item.id
    title := some item.title
    details := some item.details
    priority := some item.priority.value
    status := some item.status.value
    owner := some item.owner
    created_at := some item.created_at.isoformat
    updated_at := some item.updated_at.isoformat }

/-- `TodoItem.from_dict` from `src/models.py`: the constructor arguments are
evaluated left to right, `details` falls back to `""` via `.get`, the enum
and timestamp fields go through their fallible parsers, and any raised
`KeyError` / `ValueError` propagates. -/
def TodoItem.from_dict (data : TodoDict) : Except PyError TodoItem := do
  let i ← getKey "id" data.id
  let t ← getKey "title" data.title
  let det := data.details.getD ""
  let prs ← getKey "priority" data.priority
  let pr ← Priority.fromValue prs
  let sts ← getKey "status" data.status
  let st ← Status.fromValue sts
  let ow ← getKey "owner" data.owner
  let cas ← getKey "created_at" data.created_at
  let ca ← liftValue cas (PyDatetime.fromisoformat cas)
  let uas ← getKey "updated_at" data.updated_at
  let ua ← liftValue uas (PyDatetime.fromisoformat uas)
  pure ⟨i, t, det, pr, st, ow, ca, ua⟩

/-! ## auth.py — AuthManager and its file-backed store -/

/-- One element of the JSON array in the user store.  The code reads fields
with `dict.get`, so each field is optional (`none` = key absent); records
appended by `register` always carry both keys. -/
structure UserRecord where
  username : Option String
  password : Option String
deriving DecidableEq

/-- The content of the store file, at the granularity `auth.py` observes:
a parseable JSON array of user objects, blank/whitespace-only text, or
other text that `json.loads` rejects. -/
inductive FileContent where
  | records (rs : List UserRecord)
  | blank
  | garbage
deriving DecidableEq

/-- `json.loads` on the file content: `none` models a raised
`json.JSONDecodeError` (blank text is malformed JSON too). -/
def FileContent.parses : FileContent → Option (List UserRecord)
  | .records rs => some rs
  | .blank => none
  | .garbage => none

/-- Whether `content.strip()` is falsy (empty after stripping whitespace). -/
def FileContent.isBlank : FileContent → Bool
  | .blank => true
  | _ => false

/-- The state of the store file together with an environment fault model
and I/O instrumentation: `file = none` means the path does not exist;
`readFails` / `writeFails` make `read_text` / `write_text` raise `OSError`;
`reads` / `writes` count the performed `read_text` / `write_text` calls. -/
structure Disk where
  file : Option FileContent
  readFails : Bool
  writeFails : Bool
  reads : Nat
  writes : Nat
deriving DecidableEq

namespace AuthManager

/-- `self.storage_path.read_text(...)`: `none` models a raised `OSError`
(which covers both a read fault and a nonexistent file). -/
def readText (d : Disk) : Option FileContent × Disk :=
  (if d.readFails then none else d.file, { d with reads := d.reads + 1 })

/-- `self.storage_path.write_text(...)`: the `Bool` is `false` when the
write raises `OSError`, in which case the file is untouched. -/
def writeText (d : Disk) (c : FileContent) : Bool × Disk :=
  if d.writeFails then (false, { d with writes := d.writes + 1 })
  else (true, { d with file := some c, writes := d.writes + 1 })

/-- `AuthManager._load_users`: read and `json.loads` the file, returning
`[]` on `OSError` or `JSONDecodeError` (both caught in the source). -/
def loadUsers (d : Disk) : List UserRecord × Disk :=
  (match (readText d).1 with
   | none => []
   | some c =>
     match c.parses with
     | some users => users
     | none => [],
   (readText d).2)

/-- `AuthManager._save_users`: write the full record list as JSON,
silently discarding a raised `OSError` (`except OSError: pass`). -/
def saveUsers (d : Disk) (users : List UserRecord) : Disk :=
  (writeText d (.records users)).2

/-- `AuthManager._ensure_store_exists`, run by the constructor: create the
file with `[]` when absent, overwrite with `[]` when its text is blank,
leave it alone otherwise.  Nothing here is wrapped in `try/except`, so a
raised `OSError` propagates out of the constructor (`none`). -/
def ensureStoreExists (d : Disk) : Option Disk :=
  if d.file.isNone then
    match writeText d (.records []) with
    | (false, _) => none
    | (true, d') => some d'
  else
    match readText d with
    | (none, _) => none
    | (some c, d') =>
      if c.isBlank then
        match writeText d' (.records []) with
        | (false, _) => none
        | (true, d'') => some d''
      else some d'

/-- `AuthManager.authenticate` from `src/auth.py`. -/
def authenticate (d : Disk) (username password : String) : Bool × Disk :=
  if username.isEmpty || password.isEmpty then (false, d)
  else
    ((loadUsers d).1.any fun u => u.username == some username && u.password == some password,
     (loadUsers d).2)

/-- `AuthManager.register` from `src/auth.py`. -/
def register (d : Disk) (username password : String) : Bool × Disk :=
  if username.isEmpty || password.isEmpty then (false, d)
  else
    if (loadUsers d).1.any fun u => u.username == some username then (false, (loadUsers d).2)
    else
      (true, saveUsers (loadUsers d).2 ((loadUsers d).1 ++ [⟨some username, some password⟩]))

end AuthManager

/-- A call into the public `AuthManager` interface. -/
inductive AuthOp where
  | auth (username password : String)
  | reg (username password : String)

/-- Run one call, keeping only the resulting store state. -/
def runAuthOp (op : AuthOp) (d : Disk) : Disk :=
  match op with
  | .auth u p => (AuthManager.authenticate d u p).2
  | .reg u p => (AuthManager.register d u p).2

/-- Run a sequence of calls left to right. -/
def runAuthOps : List AuthOp → Disk → Disk
  | [], d => d
  | op :: ops, d => runAuthOps ops (runAuthOp op d)

/-- Pairwise-distinct usernames across a record list. -/
def distinctUsernames (rs : List UserRecord) : Prop :=
  rs.Pairwise fun a b => a.username ≠ b.username

/-! ## Helper lemmas: the ISO-8601 codec inverts the printer -/

theorem digitVal_digitChar (n : Nat) (h : n ≤ 9) : digitVal (digitChar n) = some n := by
  interval_cases n <;> decide

theorem parse2_twoDigits (n : Nat) (r : List Char) (h : n ≤ 99) :
    parse2 (twoDigits n ++ r) = some (n, r) := by
  have h1 : n / 10 ≤ 9 := by omega
  have h2 : n % 10 ≤ 9 := by omega
  simp only [twoDigits, List.cons_append, List.nil_append, parse2,
    digitVal_digitChar _ h1, digitVal_digitChar _ h2]
  have hn : 10 * (n / 10) + n % 10 = n := by omega
  rw [hn]

theorem parse4_fourDigits (n : Nat) (r : List Char) (h : n ≤ 9999) :
    parse4 (fourDigits n ++ r) = some (n, r) := by
  have h1 : n / 100 ≤ 99 := by omega
  have h2 : n % 100 ≤ 99 := by omega
  simp only [fourDigits, List.append_assoc, parse4,
    parse2_twoDigits _ _ h1, parse2_twoDigits _ _ h2]
  have hn : 100 * (n / 100) + n % 100 = n := by omega
  rw [hn]

theorem expectChar_cons (c : Char) (r : List Char) : expectChar c (c :: r) = some r := by
  simp [expectChar]

theorem takeDigits_twoDigits (m : Nat) (r : List Char) (h : m ≤ 99) :
    takeDigits (twoDigits m ++ r) =
      (m / 10 :: m % 10 :: (takeDigits r).1, (takeDigits r).2) := by
  have h1 : m / 10 ≤ 9 := by omega
  have h2 : m % 10 ≤ 9 := by omega
  simp [twoDigits, takeDigits, digitVal_digitChar _ h1, digitVal_digitChar _ h2]

theorem takeDigits_sixDigits (n : Nat) (h : n ≤ 999999) :
    takeDigits (sixDigits n) =
      ([n / 10000 / 10, n / 10000 % 10, n / 100 % 100 / 10, n / 100 % 100 % 10,
        n % 100 / 10, n % 100 % 10], []) := by
  have ha : n / 10000 ≤ 99 := by omega
  have hb : n / 100 % 100 ≤ 99 := by omega
  have hc : n % 100 ≤ 99 := by omega
  have hs : sixDigits n =
      twoDigits (n / 10000) ++ (twoDigits (n / 100 % 100) ++ (twoDigits (n % 100) ++ [])) := by
    simp [sixDigits]
  rw [hs, takeDigits_twoDigits _ _ ha, takeDigits_twoDigits _ _ hb, takeDigits_twoDigits _ _ hc]
  rfl

theorem digitsVal_sixDigits (n : Nat) (h : n ≤ 999999) :
    digitsVal [n / 10000 / 10, n / 10000 % 10, n / 100 % 100 / 10, n / 100 % 100 % 10,
      n % 100 / 10, n % 100 % 10] = n := by
  simp only [digitsVal, List.foldl]
  omega

theorem parseTime_roundtrip (hh mi s us : Nat) (h1 : hh ≤ 99) (h2 : mi ≤ 99)
    (h3 : s ≤ 99) (h4 : us ≤ 999999) :
    parseTime (twoDigits hh ++ ':' :: (twoDigits mi ++ ':' ::
      (twoDigits s ++ (if us = 0 then [] else '.' :: sixDigits us)))) = some (hh, mi, s, us) := by
  by_cases h0 : us = 0
  · subst h0
    rw [if_pos rfl]
    simp only [parseTime, parse2_twoDigits _ _ h1, expectChar_cons,
      parse2_twoDigits _ _ h2, parse2_twoDigits _ _ h3]
    simp
  · rw [if_neg h0]
    simp only [parseTime, parse2_twoDigits _ _ h1, expectChar_cons,
      parse2_twoDigits _ _ h2, parse2_twoDigits _ _ h3]
    simp only [List.cons_ne_nil, ite_false, reduceIte, expectChar_cons,
      takeDigits_sixDigits _ h4]
    simp [digitsVal_sixDigits _ h4]

theorem daysInMonth_le (y m : Nat) : daysInMonth y m ≤ 31 := by
  unfold daysInMonth
  split
  · split <;> omega
  · split <;> omega

theorem fromisoformat_isoformat (dt : PyDatetime) (h : dt.validB = true) :
    PyDatetime.fromisoformat dt.isoformat = some dt := by
  obtain ⟨y, mo, d, hh, mi, s, us⟩ := dt
  have hb := h
  simp only [PyDatetime.validB, Bool.and_eq_true, decide_eq_true_eq] at hb
  obtain ⟨⟨⟨⟨⟨⟨⟨⟨⟨hy1, hy2⟩, hm1⟩, hm2⟩, hd1⟩, hd2⟩, hhh⟩, hmi⟩, hs⟩, hus⟩ := hb
  have hnf : PyDatetime.isoChars ⟨y, mo, d, hh, mi, s, us⟩ =
      fourDigits y ++ '-' :: (twoDigits mo ++ '-' :: (twoDigits d ++ 'T' ::
        (twoDigits hh ++ ':' :: (twoDigits mi ++ ':' ::
          (twoDigits s ++ (if us = 0 then [] else '.' :: sixDigits us)))))) := by
    simp only [PyDatetime.isoChars, List.append_assoc, List.cons_append]
  show PyDatetime.fromisoChars (PyDatetime.isoformat ⟨y, mo, d, hh, mi, s, us⟩).data =
    some ⟨y, mo, d, hh, mi, s, us⟩
  have hdata : (PyDatetime.isoformat ⟨y, mo, d, hh, mi, s, us⟩).data =
      PyDatetime.isoChars ⟨y, mo, d, hh, mi, s, us⟩ := rfl
  rw [hdata, hnf]
  simp only [PyDatetime.fromisoChars, parse4_fourDigits _ _ hy2, expectChar_cons,
    parse2_twoDigits _ _ (show mo ≤ 99 by omega), parse2_twoDigits _ _ (show d ≤ 99 by have := daysInMonth_le y mo; omega),
    parseTime_roundtrip hh mi s us (by omega) (by omega) (by omega) hus, h]
  simp

/-! ## Helper lemmas: the auth layer -/

namespace AuthManager

theorem loadUsers_snd (d : Disk) : (loadUsers d).2 = { d with reads := d.reads + 1 } := rfl

theorem loadUsers_records (d : Disk) (rs : List UserRecord)
    (hr : d.readFails = false) (hf : d.file = some (.records rs)) :
    (loadUsers d).1 = rs := by
  simp [loadUsers, readText, hr, hf, FileContent.parses]

theorem loadUsers_readFails (d : Disk) (hr : d.readFails = true) :
    (loadUsers d).1 = [] := by
  simp [loadUsers, readText, hr]

theorem loadUsers_absent (d : Disk) (hr : d.readFails = false) (hf : d.file = none) :
    (loadUsers d).1 = [] := by
  simp [loadUsers, readText, hr, hf]

theorem loadUsers_malformed (d : Disk) (c : FileContent) (hr : d.readFails = false)
    (hf : d.file = some c) (hc : c.parses = none) :
    (loadUsers d).1 = [] := by
  simp [loadUsers, readText, hr, hf, hc]

theorem saveUsers_writeFails (d : Disk) (rs : List UserRecord) (hw : d.writeFails = true) :
    saveUsers d rs = { d with writes := d.writes + 1 } := by
  simp [saveUsers, writeText, hw]

theorem saveUsers_ok (d : Disk) (rs : List UserRecord) (hw : d.writeFails = false) :
    saveUsers d rs = { d with file := some (.records rs), writes := d.writes + 1 } := by
  simp [saveUsers, writeText, hw]

theorem register_emptyArgs (d : Disk) (u p : String) (h : (u.isEmpty || p.isEmpty) = true) :
    register d u p = (false, d) := by
  simp [register, h]

theorem authenticate_emptyArgs (d : Disk) (u p : String) (h : (u.isEmpty || p.isEmpty) = true) :
    authenticate d u p = (false, d) := by
  simp [authenticate, h]

theorem register_dup (d : Disk) (u p : String) (hargs : (u.isEmpty || p.isEmpty) = false)
    (hdup : ((loadUsers d).1.any fun r => r.username == some u) = true) :
    register d u p = (false, { d with reads := d.reads + 1 }) := by
  simp [register, hargs, hdup, loadUsers_snd]

theorem register_fresh (d : Disk) (u p : String) (hargs : (u.isEmpty || p.isEmpty) = false)
    (hdup : ((loadUsers d).1.any fun r => r.username == some u) = false) :
    register d u p =
      (true, saveUsers { d with reads := d.reads + 1 }
        ((loadUsers d).1 ++ [⟨some u, some p⟩])) := by
  simp [register, hargs, hdup, loadUsers_snd]

theorem authenticate_nonEmpty (d : Disk) (u p : String)
    (hargs : (u.isEmpty || p.isEmpty) = false) :
    authenticate d u p =
      ((loadUsers d).1.any fun r => r.username == some u && r.password == some p,
        { d with reads := d.reads + 1 }) := by
  simp [authenticate, hargs, loadUsers_snd]

end AuthManager

namespace AuthManager

theorem saveUsers_flags (d : Disk) (rs : List UserRecord) :
    (saveUsers d rs).readFails = d.readFails ∧ (saveUsers d rs).writeFails = d.writeFails := by
  by_cases hw : d.writeFails = true
  · simp [saveUsers_writeFails d rs hw, hw]
  · simp [saveUsers_ok d rs (by simpa using hw)]

theorem authenticate_state (d : Disk) (u p : String) :
    (authenticate d u p).2.file = d.file ∧
    (authenticate d u p).2.readFails = d.readFails ∧
    (authenticate d u p).2.writeFails = d.writeFails := by
  by_cases h : (u.isEmpty || p.isEmpty) = true
  · simp [authenticate_emptyArgs d u p h]
  · rw [authenticate_nonEmpty d u p (by simpa using h)]
    simp

theorem register_flags (d : Disk) (u p : String) :
    (register d u p).2.readFails = d.readFails ∧
    (register d u p).2.writeFails = d.writeFails := by
  by_cases hargs : (u.isEmpty || p.isEmpty) = true
  · simp [register_emptyArgs d u p hargs]
  · have hargs' : (u.isEmpty || p.isEmpty) = false := by simpa using hargs
    by_cases hdup : ((loadUsers d).1.any fun r => r.username == some u) = true
    · simp [register_dup d u p hargs' hdup]
    · rw [register_fresh d u p hargs' (by simpa using hdup)]
      have := saveUsers_flags { d with reads := d.reads + 1 }
        ((loadUsers d).1 ++ [⟨some u, some p⟩])
      simpa using this

theorem register_reliable_cases (d : Disk) (rs : List UserRecord) (u p : String)
    (hr : d.readFails = false) (hw : d.writeFails = false)
    (hf : d.file = some (.records rs)) :
    ((register d u p).1 = false ∧ (register d u p).2.file = d.file) ∨
    ((register d u p).1 = true ∧
      (register d u p).2.file = some (.records (rs ++ [⟨some u, some p⟩])) ∧
      (rs.any fun r => r.username == some u) = false) := by
  by_cases hargs : (u.isEmpty || p.isEmpty) = true
  · left
    simp [register_emptyArgs d u p hargs]
  · have hargs' : (u.isEmpty || p.isEmpty) = false := by simpa using hargs
    have hl : (loadUsers d).1 = rs := loadUsers_records d rs hr hf
    by_cases hdup : ((loadUsers d).1.any fun r => r.username == some u) = true
    · left
      simp [register_dup d u p hargs' hdup]
    · have hdup' : ((loadUsers d).1.any fun r => r.username == some u) = false := by
        simpa using hdup
      right
      rw [register_fresh d u p hargs' hdup', hl]
      refine ⟨rfl, ?_, by rw [← hl]; exact hdup'⟩
      rw [saveUsers_ok _ _ (by simpa using hw)]

end AuthManager

/-- The store is on a reliable disk, parses as a record array, and its
usernames are pairwise distinct. -/
def ReliableStore (d : Disk) : Prop :=
  d.readFails = false ∧ d.writeFails = false ∧
  ∃ rs, d.file = some (.records rs) ∧ distinctUsernames rs

theorem runAuthOp_reliable (op : AuthOp) (d : Disk) (h : ReliableStore d) :
    ReliableStore (runAuthOp op d) := by
  obtain ⟨hr, hw, rs, hf, hdist⟩ := h
  cases op with
  | auth u p =>
    obtain ⟨h1, h2, h3⟩ := AuthManager.authenticate_state d u p
    exact ⟨by rw [runAuthOp, h2, hr], by rw [runAuthOp, h3, hw], rs, by rw [runAuthOp, h1, hf], hdist⟩
  | reg u p =>
    obtain ⟨h2, h3⟩ := AuthManager.register_flags d u p
    refine ⟨by rw [runAuthOp, h2, hr], by rw [runAuthOp, h3, hw], ?_⟩
    rcases AuthManager.register_reliable_cases d rs u p hr hw hf with ⟨_, hfile⟩ | ⟨_, hfile, hnodup⟩
    · exact ⟨rs, by rw [runAuthOp, hfile, hf], hdist⟩
    · refine ⟨rs ++ [⟨some u, some p⟩], by rw [runAuthOp, hfile], ?_⟩
      rw [distinctUsernames, List.pairwise_append]
      refine ⟨hdist, by simp, ?_⟩
      intro a ha b hb
      simp only [List.mem_singleton] at hb
      subst hb
      simp only [List.any_eq_false] at hnodup
      have := hnodup a ha
      simpa using this

theorem runAuthOps_reliable (ops : List AuthOp) (d : Disk) (h : ReliableStore d) :
    ReliableStore (runAuthOps ops d) := by
  induction ops generalizing d with
  | nil => exact h
  | cons op ops ih => exact ih _ (runAuthOp_reliable op d h)

/-! ## Claims about the authentication layer -/

/-- Claim C1 (amended): for non-empty username and password, against a store
whose file reads and writes succeed, if `register(username, password)`
returns true (no stored record already carries that username), then an
immediate `authenticate(username, password)` with the same pair returns
true. -/
theorem register_then_authenticate (d : Disk) (u p : String)
    (hu : u.isEmpty = false) (hp : p.isEmpty = false)
    (hr : d.readFails = false) (hw : d.writeFails = false)
    (hreg : (AuthManager.register d u p).1 = true) :
    (AuthManager.authenticate (AuthManager.register d u p).2 u p).1 = true := by
  have hargs : (u.isEmpty || p.isEmpty) = false := by rw [hu, hp]; rfl
  by_cases hdup : ((AuthManager.loadUsers d).1.any fun r => r.username == some u) = true
  · rw [AuthManager.register_dup d u p hargs hdup] at hreg
    cases hreg
  · have hdup' : ((AuthManager.loadUsers d).1.any fun r => r.username == some u) = false := by
      simpa using hdup
    rw [AuthManager.register_fresh d u p hargs hdup']
    rw [AuthManager.saveUsers_ok _ _ (by simpa using hw)]
    rw [AuthManager.authenticate_nonEmpty _ u p hargs]
    rw [AuthManager.loadUsers_records _
      ((AuthManager.loadUsers d).1 ++ [⟨some u, some p⟩]) (by simpa using hr) (by simp)]
    simp

/-- Claim C1, the claim as frozen is false on the code: with a record
`alice / pw1` already stored, `register("alice", "pw2")` followed by
`authenticate("alice", "pw2")` returns false (register refuses the
duplicate username); and on a store whose write fails, `register` still
returns true but the immediate `authenticate` returns false. -/
theorem register_then_authenticate_counterexample :
    ((String.isEmpty "alice") = false ∧ (String.isEmpty "pw2") = false ∧
     (AuthManager.authenticate
       (AuthManager.register
         ⟨some (.records [⟨some "alice", some "pw1"⟩]), false, false, 0, 0⟩ "alice" "pw2").2
       "alice" "pw2").1 = false) ∧
    ((String.isEmpty "alice") = false ∧ (String.isEmpty "pw") = false ∧
     (AuthManager.register ⟨some (.records []), false, true, 0, 0⟩ "alice" "pw").1 = true ∧
     (AuthManager.authenticate
       (AuthManager.register ⟨some (.records []), false, true, 0, 0⟩ "alice" "pw").2
       "alice" "pw").1 = false) := by
  decide

theorem register_then_authenticate_witness :
    (AuthManager.register ⟨some (.records []), false, false, 0, 0⟩ "bob" "secret").1 = true ∧
    (AuthManager.authenticate
      (AuthManager.register ⟨some (.records []), false, false, 0, 0⟩ "bob" "secret").2
      "bob" "secret").1 = true :=
  ⟨by decide,
    register_then_authenticate ⟨some (.records []), false, false, 0, 0⟩ "bob" "secret"
      (by decide) (by decide) rfl rfl (by decide)⟩

/-- Claim C2: `authenticate` returns false immediately when either argument
is the empty string — for every disk, including one whose read would fail,
with the state untouched and zero file reads — and otherwise, on a readable
store parsing to records `rs`, returns true iff some stored record's
username and password both exactly match the arguments (case-sensitive
plaintext equality). -/
theorem authenticate_spec (d : Disk) (rs : List UserRecord) (u p : String) :
    ((u.isEmpty || p.isEmpty) = true →
      AuthManager.authenticate d u p = (false, d) ∧
      (AuthManager.authenticate d u p).2.reads = d.reads) ∧
    ((u.isEmpty || p.isEmpty) = false → d.readFails = false →
      d.file = some (.records rs) →
      ((AuthManager.authenticate d u p).1 = true ↔
        ∃ r ∈ rs, r.username = some u ∧ r.password = some p)) := by
  constructor
  · intro h
    have he := AuthManager.authenticate_emptyArgs d u p h
    exact ⟨he, by rw [he]⟩
  · intro hargs hr hf
    rw [AuthManager.authenticate_nonEmpty d u p hargs]
    rw [show (((AuthManager.loadUsers d).1.any
          fun r => r.username == some u && r.password == some p,
        ({ d with reads := d.reads + 1 } : Disk)) : Bool × Disk).1 =
        ((AuthManager.loadUsers d).1.any
          fun r => r.username == some u && r.password == some p) from rfl]
    rw [AuthManager.loadUsers_records d rs hr hf]
    simp [List.any_eq_true]

theorem authenticate_spec_witness :
    (AuthManager.authenticate ⟨some .garbage, true, false, 3, 0⟩ "" "x" =
      (false, ⟨some .garbage, true, false, 3, 0⟩)) ∧
    (AuthManager.authenticate
      ⟨some (.records [⟨some "alice", some "pw"⟩]), false, false, 0, 0⟩ "alice" "pw").1 = true := by
  constructor
  · exact ((authenticate_spec ⟨some .garbage, true, false, 3, 0⟩ [] "" "x").1 (by decide)).1
  · exact ((authenticate_spec ⟨some (.records [⟨some "alice", some "pw"⟩]), false, false, 0, 0⟩
      [⟨some "alice", some "pw"⟩] "alice" "pw").2 (by decide) rfl rfl).2
      ⟨⟨some "alice", some "pw"⟩, by simp⟩

/-- Claim C3: `register` returns false when either argument is empty (store
untouched); on a readable store parsing to records `rs`, if a stored record
already carries that exact username it returns false without writing (file
content and write count unchanged, so the stored password is not altered);
otherwise, when the write succeeds, it appends exactly the new record,
persists the full list, and returns true. -/
theorem register_spec (d : Disk) (rs : List UserRecord) (u p : String) :
    ((u.isEmpty || p.isEmpty) = true → AuthManager.register d u p = (false, d)) ∧
    ((u.isEmpty || p.isEmpty) = false → d.readFails = false →
      d.file = some (.records rs) →
      (((∃ r ∈ rs, r.username = some u) →
        (AuthManager.register d u p).1 = false ∧
        (AuthManager.register d u p).2.file = d.file ∧
        (AuthManager.register d u p).2.writes = d.writes) ∧
       ((¬∃ r ∈ rs, r.username = some u) → d.writeFails = false →
        (AuthManager.register d u p).1 = true ∧
        (AuthManager.register d u p).2.file =
          some (.records (rs ++ [⟨some u, some p⟩]))))) := by
  refine ⟨fun h => AuthManager.register_emptyArgs d u p h, fun hargs hr hf => ⟨?_, ?_⟩⟩
  · intro hdup
    have hl := AuthManager.loadUsers_records d rs hr hf
    have hany : ((AuthManager.loadUsers d).1.any fun r => r.username == some u) = true := by
      rw [hl]
      simp only [List.any_eq_true]
      obtain ⟨r, hmem, hru⟩ := hdup
      exact ⟨r, hmem, by simp [hru]⟩
    rw [AuthManager.register_dup d u p hargs hany]
    exact ⟨rfl, rfl, rfl⟩
  · intro hdup hw
    have hl := AuthManager.loadUsers_records d rs hr hf
    have hany : ((AuthManager.loadUsers d).1.any fun r => r.username == some u) = false := by
      rw [hl]
      simp only [List.any_eq_false]
      intro r hmem hru
      exact hdup ⟨r, hmem, by simpa using hru⟩
    rw [AuthManager.register_fresh d u p hargs hany, hl]
    refine ⟨rfl, ?_⟩
    rw [AuthManager.saveUsers_ok _ _ (by simpa using hw)]

theorem register_spec_witness :
    (AuthManager.register ⟨some (.records [⟨some "alice", some "pw1"⟩]), false, false, 0, 0⟩
      "alice" "pw2").1 = false ∧
    (AuthManager.register ⟨some (.records [⟨some "alice", some "pw1"⟩]), false, false, 0, 0⟩
      "bob" "pw2").2.file =
      some (.records [⟨some "alice", some "pw1"⟩, ⟨some "bob", some "pw2"⟩]) := by
  constructor
  · exact (((register_spec ⟨some (.records [⟨some "alice", some "pw1"⟩]), false, false, 0, 0⟩
      [⟨some "alice", some "pw1"⟩] "alice" "pw2").2 (by decide) rfl rfl).1
      ⟨⟨some "alice", some "pw1"⟩, by simp⟩).1
  · exact (((register_spec ⟨some (.records [⟨some "alice", some "pw1"⟩]), false, false, 0, 0⟩
      [⟨some "alice", some "pw1"⟩] "bob" "pw2").2 (by decide) rfl rfl).2
      (by simp) rfl).2

/-- Claim C5: `_load_users` never raises (it is a total function of the disk
state) and recovers every failure into the empty record list: a failing
read, a missing file, and file content that `json.loads` rejects all yield
`[]`, indistinguishable from a store with no users. -/
theorem load_users_recovers (d : Disk) :
    (d.readFails = true → (AuthManager.loadUsers d).1 = []) ∧
    (d.readFails = false → d.file = none → (AuthManager.loadUsers d).1 = []) ∧
    (∀ c, d.readFails = false → d.file = some c → c.parses = none →
      (AuthManager.loadUsers d).1 = []) :=
  ⟨fun hr => AuthManager.loadUsers_readFails d hr,
   fun hr hf => AuthManager.loadUsers_absent d hr hf,
   fun c hr hf hc => AuthManager.loadUsers_malformed d c hr hf hc⟩

theorem load_users_recovers_witness :
    (AuthManager.loadUsers ⟨some (.records [⟨some "a", some "b"⟩]), true, false, 0, 0⟩).1 = [] ∧
    (AuthManager.loadUsers ⟨some .garbage, false, false, 0, 0⟩).1 = [] ∧
    (AuthManager.loadUsers ⟨none, false, false, 0, 0⟩).1 = [] :=
  ⟨(load_users_recovers ⟨some (.records [⟨some "a", some "b"⟩]), true, false, 0, 0⟩).1 rfl,
   (load_users_recovers ⟨some .garbage, false, false, 0, 0⟩).2.2 .garbage rfl rfl rfl,
   (load_users_recovers ⟨none, false, false, 0, 0⟩).2.1 rfl rfl⟩

/-- Claim C6: `_save_users` never raises and a write failure is invisible to
callers: on a disk whose write fails, saving any record list leaves the
file content unchanged, and `register` still returns true whenever its
argument validation and uniqueness check pass — with the store file in fact
unchanged. -/
theorem save_failure_unobservable (d : Disk) (rs : List UserRecord) (u p : String)
    (hw : d.writeFails = true) :
    (AuthManager.saveUsers d rs).file = d.file ∧
    ((u.isEmpty || p.isEmpty) = false →
      ((AuthManager.loadUsers d).1.any fun r => r.username == some u) = false →
      (AuthManager.register d u p).1 = true ∧
      (AuthManager.register d u p).2.file = d.file) := by
  constructor
  · rw [AuthManager.saveUsers_writeFails d rs hw]
  · intro hargs hdup
    rw [AuthManager.register_fresh d u p hargs hdup]
    refine ⟨rfl, ?_⟩
    rw [AuthManager.saveUsers_writeFails _ _ (by simpa using hw)]

theorem save_failure_unobservable_witness :
    (AuthManager.saveUsers ⟨some (.records []), false, true, 0, 0⟩
      [⟨some "a", some "b"⟩]).file = some (.records []) ∧
    (AuthManager.register ⟨some (.records []), false, true, 0, 0⟩ "a" "b").1 = true := by
  have h := save_failure_unobservable ⟨some (.records []), false, true, 0, 0⟩
    [⟨some "a", some "b"⟩] "a" "b" rfl
  exact ⟨h.1, (h.2 (by decide) (by decide)).1⟩

/-- Claim C7: starting from a store on a reliable disk whose records have
pairwise-distinct usernames, after any sequence of `authenticate` and
`register` calls the store still parses as a record list with
pairwise-distinct usernames; moreover a successful `register` changes the
store exactly by appending the one new record at the end, preserving the
insertion order of all existing records. -/
theorem store_uniqueness_invariant (d : Disk) (rs : List UserRecord) (ops : List AuthOp)
    (hr : d.readFails = false) (hw : d.writeFails = false)
    (hf : d.file = some (.records rs)) (hdist : distinctUsernames rs) :
    (∃ rs', (runAuthOps ops d).file = some (.records rs') ∧ distinctUsernames rs') ∧
    (∀ u p, (AuthManager.register d u p).1 = true →
      (AuthManager.register d u p).2.file = some (.records (rs ++ [⟨some u, some p⟩]))) := by
  constructor
  · obtain ⟨_, _, rs', hfile, hdist'⟩ := runAuthOps_reliable ops d ⟨hr, hw, rs, hf, hdist⟩
    exact ⟨rs', hfile, hdist'⟩
  · intro u p ht
    rcases AuthManager.register_reliable_cases d rs u p hr hw hf with ⟨hfalse, _⟩ | ⟨_, hfile, _⟩
    · rw [ht] at hfalse
      cases hfalse
    · exact hfile

theorem store_uniqueness_invariant_witness :
    (∃ rs', (runAuthOps [.reg "a" "pw", .auth "a" "pw", .reg "a" "pw2"]
        ⟨some (.records []), false, false, 0, 0⟩).file = some (.records rs') ∧
      distinctUsernames rs') ∧
    (AuthManager.register ⟨some (.records []), false, false, 0, 0⟩ "a" "pw").2.file =
      some (.records [⟨some "a", some "pw"⟩]) := by
  have h := store_uniqueness_invariant ⟨some (.records []), false, false, 0, 0⟩ []
    [.reg "a" "pw", .auth "a" "pw", .reg "a" "pw2"] rfl rfl rfl (by simp [distinctUsernames])
  exact ⟨h.1, h.2 "a" "pw" (by decide)⟩

/-- Claim C9: constructing the manager (which runs `_ensure_store_exists`)
against a nonexistent path whose write succeeds creates the file holding an
empty JSON array; against an existing blank/whitespace-only file it
overwrites the content with an empty JSON array; against an existing file
with any non-blank content it performs no write (write count unchanged) and
leaves the content unchanged. -/
theorem ensure_store_bootstrap (d : Disk) :
    (d.file = none → d.writeFails = false →
      ∃ d', AuthManager.ensureStoreExists d = some d' ∧ d'.file = some (.records [])) ∧
    (d.file = some .blank → d.readFails = false → d.writeFails = false →
      ∃ d', AuthManager.ensureStoreExists d = some d' ∧ d'.file = some (.records [])) ∧
    (∀ c, d.file = some c → c.isBlank = false → d.readFails = false →
      ∃ d', AuthManager.ensureStoreExists d = some d' ∧ d'.file = d.file ∧
        d'.writes = d.writes) := by
  refine ⟨fun hf hw => ?_, fun hf hr hw => ?_, fun c hf hc hr => ?_⟩
  · refine ⟨{ d with file := some (.records []), writes := d.writes + 1 }, ?_, rfl⟩
    simp [AuthManager.ensureStoreExists, AuthManager.writeText, hf, hw]
  · refine ⟨{ d with reads := d.reads + 1, file := some (.records []), writes := d.writes + 1 }, ?_, rfl⟩
    simp [AuthManager.ensureStoreExists, AuthManager.readText, AuthManager.writeText,
      hf, hr, hw, FileContent.isBlank]
  · refine ⟨{ d with reads := d.reads + 1 }, ?_, rfl, rfl⟩
    simp [AuthManager.ensureStoreExists, AuthManager.readText, hf, hr, hc]

theorem ensure_store_bootstrap_witness :
    (∃ d', AuthManager.ensureStoreExists ⟨none, false, false, 0, 0⟩ = some d' ∧
      d'.file = some (.records [])) ∧
    (∃ d', AuthManager.ensureStoreExists ⟨some .blank, false, false, 0, 0⟩ = some d' ∧
      d'.file = some (.records [])) ∧
    (∃ d', AuthManager.ensureStoreExists
        ⟨some (.records [⟨some "a", some "b"⟩]), false, false, 0, 7⟩ = some d' ∧
      d'.file = some (.records [⟨some "a", some "b"⟩]) ∧ d'.writes = 7) :=
  ⟨(ensure_store_bootstrap ⟨none, false, false, 0, 0⟩).1 rfl rfl,
   (ensure_store_bootstrap ⟨some .blank, false, false, 0, 0⟩).2.1 rfl rfl rfl,
   (ensure_store_bootstrap ⟨some (.records [⟨some "a", some "b"⟩]), false, false, 0, 7⟩).2.2
     (.records [⟨some "a", some "b"⟩]) rfl rfl rfl⟩

/-! ## Helper lemmas: from_dict -/

theorem from_dict_shape (m : TodoDict) (i t pr st ow ca ua : String)
    (hi : m.id = some i) (ht : m.title = some t) (hpr : m.priority = some pr)
    (hst : m.status = some st) (how : m.owner = some ow)
    (hca : m.created_at = some ca) (hua : m.updated_at = some ua) :
    TodoItem.from_dict m =
      match Priority.fromValue pr with
      | .error e => .error e
      | .ok prv =>
        match Status.fromValue st with
        | .error e => .error e
        | .ok stv =>
          match PyDatetime.fromisoformat ca with
          | none => .error (.valueError ca)
          | some cav =>
            match PyDatetime.fromisoformat ua with
            | none => .error (.valueError ua)
            | some uav => .ok ⟨i, t, m.details.getD "", prv, stv, ow, cav, uav⟩ := by
  simp only [TodoItem.from_dict, hi, ht, hpr, hst, how, hca, hua, getKey, bind, Except.bind]
  cases Priority.fromValue pr with
  | error e => rfl
  | ok prv =>
    cases Status.fromValue st with
    | error e => rfl
    | ok stv =>
      cases PyDatetime.fromisoformat ca with
      | none => rfl
      | some cav =>
        cases PyDatetime.fromisoformat ua with
        | none => rfl
        | some uav => rfl

theorem priority_fromValue_error_iff (s : String) :
    (∃ e, Priority.fromValue s = .error e) ↔ s ≠ "HIGH" ∧ s ≠ "MID" ∧ s ≠ "LOW" := by
  unfold Priority.fromValue
  split_ifs <;> simp_all

theorem status_fromValue_error_iff (s : String) :
    (∃ e, Status.fromValue s = .error e) ↔ s ≠ "PENDING" ∧ s ≠ "COMPLETED" := by
  unfold Status.fromValue
  split_ifs <;> simp_all

/-! ## Claims about the TodoItem model -/

/-- Claim C4: for every `TodoItem` whose timestamps are values a Python
`datetime` can hold, `from_dict (to_dict item)` succeeds and returns an
item equal to the original field for field, enums and timestamps
included. -/
theorem to_dict_from_dict_roundtrip (item : TodoItem)
    (h1 : item.created_at.validB = true) (h2 : item.updated_at.validB = true) :
    TodoItem.from_dict item.to_dict = Except.ok item := by
  obtain ⟨i, t, det, pr, st, ow, ca, ua⟩ := item
  simp only at h1 h2
  cases pr <;> cases st <;>
    simp [TodoItem.from_dict, TodoItem.to_dict, getKey, liftValue, Priority.value,
      Priority.fromValue, Status.value, Status.fromValue, Except.bind, bind, pure, Except.pure,
      fromisoformat_isoformat _ h1, fromisoformat_isoformat _ h2]

theorem to_dict_from_dict_roundtrip_witness :
    (⟨2024, 2, 29, 23, 59, 59, 999999⟩ : PyDatetime).validB = true ∧
    TodoItem.from_dict (TodoItem.to_dict
      ⟨"item-1", "a title", "some details", .LOW, .COMPLETED, "alice",
        ⟨2024, 2, 29, 23, 59, 59, 999999⟩, ⟨2024, 3, 1, 0, 0, 0, 0⟩⟩) =
      Except.ok ⟨"item-1", "a title", "some details", .LOW, .COMPLETED, "alice",
        ⟨2024, 2, 29, 23, 59, 59, 999999⟩, ⟨2024, 3, 1, 0, 0, 0, 0⟩⟩ :=
  ⟨by decide,
    to_dict_from_dict_roundtrip
      ⟨"item-1", "a title", "some details", .LOW, .COMPLETED, "alice",
        ⟨2024, 2, 29, 23, 59, 59, 999999⟩, ⟨2024, 3, 1, 0, 0, 0, 0⟩⟩ (by decide) (by decide)⟩

/-- Claim C8 (amended): for every input mapping that carries all the
required keys (`id`, `title`, `priority`, `status`, `owner`, `created_at`,
`updated_at` — `details` stays optional), `from_dict` propagates an error
exactly when the priority or status string matches no enum member, or a
timestamp string is not text `fromisoformat` accepts; a mapping missing a
required key also fails (with `KeyError`), and the store bootstrap in
`auth.py` can likewise propagate a fault, so `from_dict` is not the only
fault-propagating operation. -/
theorem from_dict_error_characterization (m : TodoDict) (i t pr st ow ca ua : String)
    (hi : m.id = some i) (ht : m.title = some t) (hpr : m.priority = some pr)
    (hst : m.status = some st) (how : m.owner = some ow)
    (hca : m.created_at = some ca) (hua : m.updated_at = some ua) :
    (∃ e, TodoItem.from_dict m = .error e) ↔
      ((pr ≠ "HIGH" ∧ pr ≠ "MID" ∧ pr ≠ "LOW") ∨
       (st ≠ "PENDING" ∧ st ≠ "COMPLETED") ∨
       PyDatetime.fromisoformat ca = none ∨
       PyDatetime.fromisoformat ua = none) := by
  rw [from_dict_shape m i t pr st ow ca ua hi ht hpr hst how hca hua]
  rw [← priority_fromValue_error_iff, ← status_fromValue_error_iff]
  cases Priority.fromValue pr <;> cases Status.fromValue st <;>
    cases PyDatetime.fromisoformat ca <;> cases PyDatetime.fromisoformat ua <;> simp

/-- Claim C8, the claim as frozen is false on the code: a mapping that
merely lacks the `id` key fails with a `KeyError` even though its enum
strings match known members and its timestamps are well-formed; and
`_ensure_store_exists` (run by the `AuthManager` constructor) propagates an
`OSError` when the creating write fails, so `from_dict` is not the only
operation in the system that propagates a fault. -/
theorem from_dict_error_counterexample :
    TodoItem.from_dict ⟨none, some "t", some "d", some "HIGH", some "PENDING",
        some "alice", some "2024-01-02T03:04:05", some "2024-01-02T03:04:05"⟩ =
      .error (.keyError "id") ∧
    Priority.fromValue "HIGH" = .ok .HIGH ∧
    Status.fromValue "PENDING" = .ok .PENDING ∧
    (PyDatetime.fromisoformat "2024-01-02T03:04:05").isSome = true ∧
    AuthManager.ensureStoreExists ⟨none, false, true, 0, 0⟩ = none := by
  refine ⟨rfl, rfl, rfl, by decide, by decide⟩

theorem from_dict_error_characterization_witness :
    ∃ e, TodoItem.from_dict ⟨some "1", some "t", none, some "URGENT", some "PENDING",
      some "alice", some "2024-01-02T03:04:05", some "2024-01-02T03:04:05"⟩ = .error e :=
  (from_dict_error_characterization
    ⟨some "1", some "t", none, some "URGENT", some "PENDING",
      some "alice", some "2024-01-02T03:04:05", some "2024-01-02T03:04:05"⟩
    "1" "t" "URGENT" "PENDING" "alice" "2024-01-02T03:04:05" "2024-01-02T03:04:05"
    rfl rfl rfl rfl rfl rfl rfl).mpr
    (Or.inl ⟨by decide, by decide, by decide⟩)

/-- Claim C10: for every input mapping lacking the `details` key on which
`from_dict` nevertheless succeeds, the resulting item's `details` field is
the empty string, and adding any `details` value to the same mapping
changes nothing but the resulting item's `details` field. -/
theorem from_dict_missing_details (m : TodoDict) (item : TodoItem)
    (hm : m.details = none) (h : TodoItem.from_dict m = Except.ok item) :
    item.details = "" ∧
    ∀ s, TodoItem.from_dict { m with details := some s } =
      Except.ok { item with details := s } := by
  obtain ⟨i, hi⟩ : ∃ i, m.id = some i := by
    cases hx : m.id with
    | none => simp [TodoItem.from_dict, hx, getKey, bind, Except.bind] at h
    | some i => exact ⟨i, rfl⟩
  obtain ⟨t, ht⟩ : ∃ t, m.title = some t := by
    cases hx : m.title with
    | none => simp [TodoItem.from_dict, hi, hx, getKey, bind, Except.bind] at h
    | some t => exact ⟨t, rfl⟩
  obtain ⟨pr, hpr⟩ : ∃ pr, m.priority = some pr := by
    cases hx : m.priority with
    | none => simp [TodoItem.from_dict, hi, ht, hx, getKey, bind, Except.bind] at h
    | some pr => exact ⟨pr, rfl⟩
  obtain ⟨st, hst⟩ : ∃ st, m.status = some st := by
    cases hx : m.status with
    | none =>
      rw [TodoItem.from_dict] at h
      simp [hi, ht, hpr, hx, getKey, bind, Except.bind] at h
      cases hp2 : Priority.fromValue pr <;> rw [hp2] at h <;> simp at h
    | some st => exact ⟨st, rfl⟩
  obtain ⟨ow, how⟩ : ∃ ow, m.owner = some ow := by
    cases hx : m.owner with
    | none =>
      rw [TodoItem.from_dict] at h
      simp [hi, ht, hpr, hst, hx, getKey, bind, Except.bind] at h
      cases hp2 : Priority.fromValue pr with
      | error e => rw [hp2] at h; simp at h
      | ok v =>
        rw [hp2] at h
        cases hs2 : Status.fromValue st <;> rw [hs2] at h <;> simp at h
    | some ow => exact ⟨ow, rfl⟩
  obtain ⟨ca, hca⟩ : ∃ ca, m.created_at = some ca := by
    cases hx : m.created_at with
    | none =>
      rw [TodoItem.from_dict] at h
      simp [hi, ht, hpr, hst, how, hx, getKey, bind, Except.bind] at h
      cases hp2 : Priority.fromValue pr with
      | error e => rw [hp2] at h; simp at h
      | ok v =>
        rw [hp2] at h
        cases hs2 : Status.fromValue st <;> rw [hs2] at h <;> simp at h
    | some ca => exact ⟨ca, rfl⟩
  obtain ⟨ua, hua⟩ : ∃ ua, m.updated_at = some ua := by
    cases hx : m.updated_at with
    | none =>
      rw [TodoItem.from_dict] at h
      simp [hi, ht, hpr, hst, how, hca, hx, getKey, bind, Except.bind, liftValue] at h
      cases hp2 : Priority.fromValue pr with
      | error e => rw [hp2] at h; simp at h
      | ok v =>
        rw [hp2] at h
        cases hs2 : Status.fromValue st with
        | error e => rw [hs2] at h; simp at h
        | ok w =>
          rw [hs2] at h
          simp only [liftValue] at h
          cases hc2 : PyDatetime.fromisoformat ca <;> rw [hc2] at h <;> simp at h
    | some ua => exact ⟨ua, rfl⟩
  rw [from_dict_shape m i t pr st ow ca ua hi ht hpr hst how hca hua] at h
  cases hpv : Priority.fromValue pr with
  | error e => rw [hpv] at h; simp at h
  | ok prv =>
  cases hsv : Status.fromValue st with
  | error e => rw [hpv, hsv] at h; simp at h
  | ok stv =>
  cases hcv : PyDatetime.fromisoformat ca with
  | none => rw [hpv, hsv, hcv] at h; simp at h
  | some cav =>
  cases huv : PyDatetime.fromisoformat ua with
  | none => rw [hpv, hsv, hcv, huv] at h; simp at h
  | some uav =>
  rw [hpv, hsv, hcv, huv] at h
  simp only [Except.ok.injEq] at h
  subst h
  refine ⟨by simp [hm], fun s => ?_⟩
  rw [from_dict_shape { m with details := some s } i t pr st ow ca ua
    (by simp [hi]) (by simp [ht]) (by simp [hpr]) (by simp [hst])
    (by simp [how]) (by simp [hca]) (by simp [hua])]
  rw [hpv, hsv, hcv, huv]
  simp [hm]

theorem from_dict_missing_details_witness :
    (⟨"1", "t", "", .MID, .COMPLETED, "o", ⟨2023, 5, 6, 0, 0, 0, 0⟩,
      ⟨2023, 5, 6, 0, 0, 0, 0⟩⟩ : TodoItem).details = "" ∧
    TodoItem.from_dict ⟨some "1", some "t", some "extra", some "MID", some "COMPLETED",
        some "o", some "2023-05-06", some "2023-05-06"⟩ =
      Except.ok ⟨"1", "t", "extra", .MID, .COMPLETED, "o", ⟨2023, 5, 6, 0, 0, 0, 0⟩,
        ⟨2023, 5, 6, 0, 0, 0, 0⟩⟩ := by
  have h := from_dict_missing_details
    ⟨some "1", some "t", none, some "MID", some "COMPLETED", some "o",
      some "2023-05-06", some "2023-05-06"⟩
    ⟨"1", "t", "", .MID, .COMPLETED, "o", ⟨2023, 5, 6, 0, 0, 0, 0⟩,
      ⟨2023, 5, 6, 0, 0, 0, 0⟩⟩ rfl (by rfl)
  exact ⟨h.1, h.2 "extra"⟩
